import Mathlib

/-!
Verification development for the printerX6 thermal-printer driver
(`gui_driver.py`).  The definitions below are a shallow embedding of the
protocol constants, the image-to-device-bitmap encoder
(`PrintAppWindow.start_print_job`, pre-processing part), the discovery
probe/scanner (`PortScannerWorker.run`) and the chunked transfer worker
(`PrintWorker.run`).  Serial I/O and Qt signals are modelled as explicit
event traces; the outcome of each fallible external call (port open,
serial write, serial read) is supplied by an environment record, and the
cooperative cancellation flag is modelled by the instant (in flag-read
order) at which it becomes set, reflecting that `cancel()` only ever sets
the flag to `True`.
-/

set_option maxRecDepth 4000

namespace PrinterX6

/-- ASCII bytes of a string constant (all protocol strings are 7-bit ASCII). -/
def strBytes (s : String) : List Nat :=
  s.data.map Char.toNat

/-- `PRINTER_WIDTH_PX = 384` from gui_driver.py. -/
def PRINTER_WIDTH_PX : Nat := 384

/-- `PRINTER_HANDSHAKE = b"MHV=H1.0,SV=V1.01,VOLT=8000mv,DPI=384,\n"`. -/
def PRINTER_HANDSHAKE : List Nat := strBytes "MHV=H1.0,SV=V1.01,VOLT=8000mv,DPI=384,\n"

/-- `PRINTER_EXECUTE = b"LABELAT1\n"`. -/
def PRINTER_EXECUTE : List Nat := strBytes "LABELAT1\n"

/-- `FINAL_FEED_COMMAND = b"\x1B\x64\x06"` (ESC d 6). -/
def FINAL_FEED_COMMAND : List Nat := [0x1B, 0x64, 0x06]

/-- `PROBE_PING = b"\x1E\x47\x03"`. -/
def PROBE_PING : List Nat := [0x1E, 0x47, 0x03]

/-- `PROBE_PONG_EXPECTED = b"HV=H1.0"`. -/
def PROBE_PONG_EXPECTED : List Nat := strBytes "HV=H1.0"

/-- `CHUNK_BYTE_SIZE = 48 * 16` (768 bytes). -/
def CHUNK_BYTE_SIZE : Nat := 48 * 16

/-! ## Images

`current_pil_image` is an RGB PIL image.  For the encoder only the
luminance of each pixel matters (PIL's `convert('1')` goes through mode
`L`), so a pixel is modelled as a luminance value in `0..255`; `px` is a
total function, sampled only inside `width × height`. -/

/-- A raster image: dimensions plus a (total) pixel-luminance function. -/
structure Img where
  width : Nat
  height : Nat
  px : Nat → Nat → Nat

/-- The three alignment radio buttons of the UI. -/
inductive Alignment
  | left
  | center
  | right
deriving DecidableEq, Repr

/-- `right_bound = min(x_offset + PRINTER_WIDTH_PX, self.current_pil_image.width)`. -/
def rightBoundOf (img : Img) (xOffset : Nat) : Nat :=
  min (xOffset + PRINTER_WIDTH_PX) img.width

/-- `self.current_pil_image.crop((x_offset, 0, right_bound, height))`:
the horizontal window at full source height. -/
def croppedImage (img : Img) (xOffset : Nat) : Img :=
  { width := rightBoundOf img xOffset - xOffset
    height := img.height
    px := fun x y => img.px (xOffset + x) y }

/-- `paste_position` x-coordinate: `(0, 0)` default (left), `space_diff // 2`
for center, `space_diff` for right, where `space_diff = PRINTER_WIDTH_PX - w`. -/
def pastePosition (al : Alignment) (spaceDiff : Nat) : Nat :=
  match al with
  | .left => 0
  | .center => spaceDiff / 2
  | .right => spaceDiff

/-- `Image.new('RGB', (w, h), (255, 255, 255))`: an all-white canvas. -/
def whiteCanvas (w h : Nat) : Img :=
  { width := w, height := h, px := fun _ _ => 255 }

/-- `canvas.paste(src, (x0, 0))`: overwrite the rectangle
`[x0, x0 + src.width) × [0, src.height)` of `base` with `src`. -/
def pasteOnto (base src : Img) (x0 : Nat) : Img :=
  { width := base.width
    height := base.height
    px := fun x y =>
      if x0 ≤ x ∧ x < x0 + src.width ∧ y < src.height then src.px (x - x0) y
      else base.px x y }

/-- `image_to_process` of `start_print_job`: if the crop is narrower than
`PRINTER_WIDTH_PX` it is pasted onto a white `PRINTER_WIDTH_PX × height`
canvas at the alignment-determined x-offset, otherwise it is used as-is. -/
def imageToProcess (img : Img) (xOffset : Nat) (al : Alignment) : Img :=
  if (croppedImage img xOffset).width < PRINTER_WIDTH_PX then
    pasteOnto (whiteCanvas PRINTER_WIDTH_PX (croppedImage img xOffset).height)
      (croppedImage img xOffset)
      (pastePosition al (PRINTER_WIDTH_PX - (croppedImage img xOffset).width))
  else
    croppedImage img xOffset

/-- Serial actions performed while probing one port. -/
inductive PEv
  | popen
  | pwrite (bs : List Nat)
  | pread (resp : List Nat)
  | pclose
deriving DecidableEq, Repr

/-- Outcome of the three fallible serial calls of one probe, plus the
bytes `ser.read(100)` returns when it succeeds. -/
structure ProbeEnv where
  openOk : Bool
  writeOk : Bool
  readOk : Bool
  response : List Nat
deriving DecidableEq, Repr

/-- Does `needle` occur at the head of `hay`? -/
def startsWith : List Nat → List Nat → Bool
  | [], _ => true
  | _ :: _, [] => false
  | a :: as, b :: bs => a == b && startsWith as bs

/-- Python bytes containment `needle in hay`: does `needle` occur as a
contiguous subsequence of `hay`? -/
def bytesContain (needle : List Nat) : List Nat → Bool
  | [] => needle.isEmpty
  | hay@(_ :: rest) => startsWith needle hay || bytesContain needle rest

/-- One probe (`PortScannerWorker.run` loop body): open, write the ping,
read up to 100 bytes, close, then test
`if response and PROBE_PONG_EXPECTED in response`.  A raise at any of the
three calls jumps to the logging-only `except` handlers: everything after
the raising call - including `ser.close()` - is skipped and the port does
not match. -/
def probePort (e : ProbeEnv) : List PEv × Bool :=
  if !e.openOk then ([], false)
  else if !e.writeOk then ([.popen], false)
  else if !e.readOk then ([.popen, .pwrite PROBE_PING], false)
  else ([.popen, .pwrite PROBE_PING, .pread e.response, .pclose],
        !e.response.isEmpty && bytesContain PROBE_PONG_EXPECTED e.response)

/-- The scan loop of `PortScannerWorker.run`: probe the enumerated ports
in order, `break` at the first match.  Returns `found_port` (the emitted
value) together with the list of ports actually probed, in order. -/
def scanPorts : List (String × ProbeEnv) → Option String × List String
  | [] => (none, [])
  | (p, e) :: rest =>
    if (probePort e).2 then (some p, [p])
    else
      let r := scanPorts rest
      (r.1, p :: r.2)

/-! ## Print transfer worker (`PrintWorker.run`)

The worker's externally visible behaviour is a trace of events: serial
writes/flushes, sleeps, the `progress_update`, `error` (terminal outcome
title) and `finished` signals, and the `close()` of the serial handle.
A `PrintEnv` supplies the result of the port open and of each successive
serial `write` call (numbered in call order), and the instant at which
the cancellation flag becomes set, counted in flag-read order: the flag
is read once at the top of each chunk iteration and once after the loop,
and `cancel()` only ever sets it, so the value read at read `r` is
`t ≤ r` when the flag is set at instant `t`. -/

/-- Events of one print job, in the order the worker performs them. -/
inductive Ev
  | write (bs : List Nat)
  | flush
  | sleep
  | progress (n : Nat)
  | outcome (title : String)
  | close
  | finished
deriving DecidableEq, Repr

/-- Result of one serial `write` call: it either writes all bytes and
returns their count, or raises `SerialTimeoutException`,
`serial.SerialException`, or some other exception. -/
inductive WriteRes
  | ok
  | timeoutErr
  | serialErr
  | otherErr
deriving DecidableEq, Repr

/-- Environment of one `PrintWorker.run` execution. -/
structure PrintEnv where
  openOk : Bool
  writeRes : Nat → WriteRes
  cancelTime : Option Nat

/-- Value of `self._is_canceled` at the `r`-th read (monotone: once set,
it stays set, since `cancel()` only assigns `True`). -/
def flagAt (env : PrintEnv) (r : Nat) : Bool :=
  match env.cancelTime with
  | none => false
  | some t => decide (t ≤ r)

/-- Exception-to-outcome-title mapping of the `except` clauses of
`PrintWorker.run`: `SerialTimeoutException` and the generic handler both
report title `"Print Error"`, `SerialException` reports
`"Connection Error"`. -/
def exnTitle : WriteRes → String
  | .serialErr => "Connection Error"
  | _ => "Print Error"

/-- Result of the chunk loop: ran out of data (with final write index,
flag-read index, and `bytes_sent_total`), broke on the cancellation
flag, or a write raised. -/
inductive LoopRes
  | completed (j k total : Nat)
  | canceledAt (j k total : Nat)
  | raised (e : WriteRes)
deriving DecidableEq, Repr

/-- The chunk start offsets `range(0, n, CHUNK_BYTE_SIZE)` for a payload
of `n` bytes: `0, CHUNK_BYTE_SIZE, 2 * CHUNK_BYTE_SIZE, ...`, one per
chunk, `ceil(n / CHUNK_BYTE_SIZE)` of them. -/
def chunkStarts (n : Nat) : List Nat :=
  (List.range ((n + CHUNK_BYTE_SIZE - 1) / CHUNK_BYTE_SIZE)).map
    (fun i => CHUNK_BYTE_SIZE * i)

/-- The slices `data[i : i + CHUNK_BYTE_SIZE]` visited by
`for i in range(0, total_bytes_to_send, CHUNK_BYTE_SIZE)`, in index
order. -/
def chunksOf (l : List Nat) : List (List Nat) :=
  (chunkStarts l.length).map (fun i => (l.drop i).take CHUNK_BYTE_SIZE)

/-- The chunk-streaming loop of `PrintWorker.run`, over the successive
slices of `all_image_data`: at each iteration read the cancellation flag
(`break` if set), skip empty slices (`continue`), write the chunk, flush,
accumulate `bytes_sent_total`, emit `progress_update`, sleep
`CHUNK_DELAY_S`.  `j` numbers the serial write calls, `k` the flag
reads. -/
def chunkLoopGo (env : PrintEnv) : List (List Nat) → Nat → Nat → Nat → List Ev × LoopRes
  | [], j, k, total => ([], .completed j k total)
  | chunk :: rest, j, k, total =>
    if flagAt env k then
      ([], .canceledAt j k total)
    else if chunk.length = 0 then
      chunkLoopGo env rest j (k + 1) total
    else
      match env.writeRes j with
      | .ok =>
        let total' := total + chunk.length
        let r := chunkLoopGo env rest (j + 1) (k + 1) total'
        (.write chunk :: .flush :: .progress total' :: .sleep :: r.1, r.2)
      | e => ([], .raised e)

/-- The `for i in range(0, total_bytes_to_send, CHUNK_BYTE_SIZE)` loop of
`PrintWorker.run`, on the byte string itself. -/
def chunkLoop (env : PrintEnv) (data : List Nat) (j k total : Nat) :
    List Ev × LoopRes :=
  chunkLoopGo env (chunksOf data) j k total

/-- After the loop, when it completed without a break and the post-loop
flag read is false: `write(execute); sleep(0.1); write(feed); flush()`
then emit `("Success", ...)`; a raise in either write jumps to the
matching `except` clause. -/
def execFeedTail (env : PrintEnv) (execute feed : List Nat) (j : Nat) : List Ev :=
  match env.writeRes j with
  | .ok =>
    match env.writeRes (j + 1) with
    | .ok => [.write execute, .sleep, .write feed, .flush, .outcome "Success"]
    | e => [.write execute, .sleep, .outcome (exnTitle e)]
  | e => [.outcome (exnTitle e)]

/-- The streaming phase: run the chunk loop (first chunk write is serial
write call number 3, flag read number 0), then either emit
`("Canceled", ...)` (flag observed set at the break or at the post-loop
read), send execute/feed and emit success, or emit the exception's
outcome. -/
def streamPhase (env : PrintEnv) (data execute feed : List Nat) : List Ev :=
  (chunkLoop env data 3 0 0).1 ++
    match (chunkLoop env data 3 0 0).2 with
    | .completed j k _ =>
      if flagAt env k then [.outcome "Canceled"] else execFeedTail env execute feed j
    | .canceledAt _ _ _ => [.outcome "Canceled"]
    | .raised e => [.outcome (exnTitle e)]

/-- The `try` body of `PrintWorker.run` after a successful port open:
`write(PRINTER_HANDSHAKE); sleep(0.1)` (write call 0), then
`write(image_command_header); flush()` (write call 1), then
`write(b"\x0D"); flush(); sleep(0.1)` (write call 2), then the chunk
loop and trailer.  A raise jumps to the matching `except` clause. -/
def tryBody (env : PrintEnv) (header data execute feed : List Nat) : List Ev :=
  match env.writeRes 0 with
  | .ok =>
    .write PRINTER_HANDSHAKE :: .sleep ::
      match env.writeRes 1 with
      | .ok =>
        .write header :: .flush ::
          match env.writeRes 2 with
          | .ok => .write [0x0D] :: .flush :: .sleep :: streamPhase env data execute feed
          | e => [.outcome (exnTitle e)]
      | e => [.outcome (exnTitle e)]
  | e => [.outcome (exnTitle e)]

/-- `PrintWorker.run`: sleep 0.5s, open the port (an open failure raises
`SerialException`, handled as `("Connection Error", ...)` with nothing to
close), run the protocol body, and in the `finally` clause close the
serial handle (if one was opened) and emit `finished`. -/
def runWorker (env : PrintEnv) (header data execute feed : List Nat) : List Ev :=
  .sleep ::
    (if env.openOk then tryBody env header data execute feed ++ [.close, .finished]
     else [.outcome "Connection Error", .finished])

/-- Payloads of the serial writes of a trace, in order. -/
def writesOf (tr : List Ev) : List (List Nat) :=
  tr.filterMap fun e =>
    match e with
    | .write bs => some bs
    | _ => none

/-- All bytes put on the wire by a trace, in order. -/
def wireBytes (tr : List Ev) : List Nat := (writesOf tr).flatten

/-- Titles of the terminal-outcome signals of a trace, in order. -/
def outcomesOf (tr : List Ev) : List String :=
  tr.filterMap fun e =>
    match e with
    | .outcome t => some t
    | _ => none

/-! ## Helper lemmas -/

/-- Recursive characterization of the slicing: the first chunk is the
first `CHUNK_BYTE_SIZE` bytes, the remaining chunks are the slices of
the rest. -/
theorem chunksOf_eq_rec (l : List Nat) :
    chunksOf l =
      if l = [] then []
      else l.take CHUNK_BYTE_SIZE :: chunksOf (l.drop CHUNK_BYTE_SIZE) := by
  by_cases h : l = []
  · subst h; rfl
  · rw [if_neg h]
    have hn : 0 < l.length := List.length_pos.mpr h
    have hm : (l.length + CHUNK_BYTE_SIZE - 1) / CHUNK_BYTE_SIZE =
        ((l.drop CHUNK_BYTE_SIZE).length + CHUNK_BYTE_SIZE - 1) / CHUNK_BYTE_SIZE + 1 := by
      simp only [List.length_drop, CHUNK_BYTE_SIZE]
      omega
    unfold chunksOf chunkStarts
    rw [hm, List.range_succ_eq_map]
    simp only [List.map_cons, List.map_map, Nat.mul_zero, List.drop_zero]
    congr 1
    apply List.map_congr_left
    intro i _
    simp only [Function.comp_apply]
    rw [List.drop_drop]
    congr 1
    rw [Nat.mul_succ, Nat.add_comm]

theorem chunksOf_flatten (l : List Nat) : (chunksOf l).flatten = l := by
  rw [chunksOf_eq_rec]
  split
  · simp [*]
  · simp [chunksOf_flatten (l.drop CHUNK_BYTE_SIZE)]
termination_by l.length
decreasing_by
  simp only [List.length_drop]
  have hpos : 0 < l.length := List.length_pos.mpr (by assumption)
  simp [CHUNK_BYTE_SIZE]
  omega

theorem chunksOf_ne_nil (l : List Nat) : ∀ c ∈ chunksOf l, c.length ≠ 0 := by
  intro c hc
  rw [chunksOf_eq_rec] at hc
  split at hc
  · simp at hc
  · rename_i hne
    rcases List.mem_cons.mp hc with h | h
    · subst h
      have hpos : 0 < l.length := List.length_pos.mpr hne
      rw [List.length_take]
      simp only [CHUNK_BYTE_SIZE]
      omega
    · exact chunksOf_ne_nil (l.drop CHUNK_BYTE_SIZE) c h
termination_by l.length
decreasing_by
  simp only [List.length_drop]
  have hpos : 0 < l.length := List.length_pos.mpr (by assumption)
  simp [CHUNK_BYTE_SIZE]
  omega

/-- Every event the chunk loop itself emits is a write, flush, progress
or sleep: the loop never emits an outcome, never closes the port and
never emits `finished`. -/
theorem chunkLoopGo_events (env : PrintEnv) :
    ∀ (cs : List (List Nat)) (j k total : Nat) (ev : Ev),
      ev ∈ (chunkLoopGo env cs j k total).1 →
      (∃ bs, ev = .write bs) ∨ ev = .flush ∨ (∃ n, ev = .progress n) ∨ ev = .sleep := by
  intro cs
  induction cs with
  | nil => intro j k total ev h; simp [chunkLoopGo] at h
  | cons c rest ih =>
    intro j k total ev h
    rw [chunkLoopGo] at h
    split at h
    · simp at h
    · split at h
      · exact ih j (k + 1) total ev h
      · split at h
        · rename_i total'
          simp only [List.mem_cons] at h
          rcases h with h | h | h | h | h
          · exact Or.inl ⟨c, h⟩
          · exact Or.inr (Or.inl h)
          · exact Or.inr (Or.inr (Or.inl ⟨_, h⟩))
          · exact Or.inr (Or.inr (Or.inr h))
          · exact ih (j + 1) (k + 1) _ ev h
        · simp at h

theorem chunkLoopGo_outcomes (env : PrintEnv) (cs : List (List Nat)) (j k total : Nat) :
    outcomesOf (chunkLoopGo env cs j k total).1 = [] := by
  refine List.filterMap_eq_nil_iff.mpr ?_
  intro ev hev
  rcases chunkLoopGo_events env cs j k total ev hev with ⟨bs, rfl⟩ | rfl | ⟨n, rfl⟩ | rfl <;> rfl

theorem chunkLoopGo_no_close (env : PrintEnv) (cs : List (List Nat)) (j k total : Nat) :
    Ev.close ∉ (chunkLoopGo env cs j k total).1 := by
  intro h
  rcases chunkLoopGo_events env cs j k total _ h with ⟨bs, h'⟩ | h' | ⟨n, h'⟩ | h' <;> simp at h'

theorem chunkLoopGo_no_finished (env : PrintEnv) (cs : List (List Nat)) (j k total : Nat) :
    Ev.finished ∉ (chunkLoopGo env cs j k total).1 := by
  intro h
  rcases chunkLoopGo_events env cs j k total _ h with ⟨bs, h'⟩ | h' | ⟨n, h'⟩ | h' <;> simp at h'

/-- If the chunk loop ran out of data (no break, no raise), it wrote
exactly the chunk list, in order. -/
theorem chunkLoopGo_completed_writes (env : PrintEnv) :
    ∀ (cs : List (List Nat)) (j k total j' k' total' : Nat),
      (∀ c ∈ cs, c.length ≠ 0) →
      (chunkLoopGo env cs j k total).2 = .completed j' k' total' →
      writesOf (chunkLoopGo env cs j k total).1 = cs := by
  intro cs
  induction cs with
  | nil => intro j k total j' k' total' _ _; simp [chunkLoopGo, writesOf]
  | cons c rest ih =>
    intro j k total j' k' total' hne hres
    have hcne : c.length ≠ 0 := hne c (by simp)
    rw [chunkLoopGo] at hres ⊢
    by_cases hf : flagAt env k = true
    · rw [if_pos hf] at hres
      simp at hres
    · rw [if_neg hf] at hres ⊢
      rw [if_neg hcne] at hres ⊢
      revert hres
      rcases hw : env.writeRes j with _ | _ | _ | _ <;> intro hres <;> dsimp only at hres ⊢
      · have hrec := ih (j + 1) (k + 1) (total + c.length) j' k' total'
          (fun c' hc' => hne c' (by simp [hc'])) hres
        simp only [writesOf, List.filterMap_cons] at hrec ⊢
        simp [hrec]
      all_goals simp at hres

/-- With all writes succeeding and the cancellation flag set at
flag-read instant `t`, observed within this loop's reads, the loop writes
exactly the first `t - k` chunks and then stops on the flag: either by
the in-loop `break` or, when the data ran out exactly then, by the
post-loop read (the returned read index `k'` satisfies `flagAt k'`). -/
theorem chunkLoopGo_canceled (env : PrinterX6.PrintEnv) (t : Nat)
    (hok : ∀ j, env.writeRes j = .ok) (hc : env.cancelTime = some t) :
    ∀ (cs : List (List Nat)) (j k total : Nat), k ≤ t → t ≤ k + cs.length →
      (∀ c ∈ cs, c.length ≠ 0) →
      writesOf (chunkLoopGo env cs j k total).1 = cs.take (t - k) ∧
      ((∃ j' k' total', (chunkLoopGo env cs j k total).2 = .completed j' k' total' ∧
          flagAt env k' = true) ∨
       (∃ j' k' total', (chunkLoopGo env cs j k total).2 = .canceledAt j' k' total')) := by
  intro cs
  induction cs with
  | nil =>
    intro j k total hkt htk _
    simp only [List.length_nil, Nat.add_zero] at htk
    have hteq : t = k := Nat.le_antisymm htk hkt
    refine ⟨by simp [chunkLoopGo, writesOf], Or.inl ⟨j, k, total, rfl, ?_⟩⟩
    simp [flagAt, hc, hteq]
  | cons c rest ih =>
    intro j k total hkt htk hne
    have hcne : c.length ≠ 0 := hne c (by simp)
    by_cases hkf : t ≤ k
    · have hteq : t = k := Nat.le_antisymm hkf hkt
      have hflag : flagAt env k = true := by simp [flagAt, hc, hteq]
      rw [chunkLoopGo, if_pos hflag]
      exact ⟨by simp [writesOf, hteq], Or.inr ⟨j, k, total, rfl⟩⟩
    · have hflag : flagAt env k = false := by
        simp only [flagAt, hc, decide_eq_false_iff_not]
        exact hkf
      rw [chunkLoopGo, if_neg (by simp [hflag]), if_neg hcne, hok j]
      obtain ⟨hw, hres⟩ := ih (j + 1) (k + 1) (total + c.length)
        (by omega) (by simp at htk ⊢; omega) (fun c' hc' => hne c' (by simp [hc']))
      constructor
      · have htk1 : 1 ≤ t - k := by omega
        rw [List.take_cons (by omega)]
        simp only [writesOf, List.filterMap_cons] at hw ⊢
        rw [hw]
        congr 1
      · exact hres

/-! ## Claims -/

/-- Claim C6 counterexample: the probe does NOT close the port on every
error path.  With a successful open and a raising `ser.write`, the trace
of performed serial actions is just the open: `ser.close()` is never
reached, because the probe body has no `finally` clause and the `except`
handlers only log. -/
theorem claim6_counterexample :
    (probePort ⟨true, false, true, strBytes "HV=H1.0"⟩).1 = [PEv.popen] ∧
    PEv.pclose ∉ (probePort ⟨true, false, true, strBytes "HV=H1.0"⟩).1 := by
  constructor
  · rfl
  · decide

/-- Claim C6 (amended): the probe closes the port exactly when the open,
the write and the read all succeed (whether or not the response matches);
when any of them raises, the close is skipped.  It reports a match
exactly when open/write/read all succeed and the read response is
nonempty and contains the expected pong substring. -/
theorem claim6_amended (e : ProbeEnv) :
    (PEv.pclose ∈ (probePort e).1 ↔
      e.openOk = true ∧ e.writeOk = true ∧ e.readOk = true) ∧
    ((probePort e).2 = true ↔
      e.openOk = true ∧ e.writeOk = true ∧ e.readOk = true ∧
        e.response ≠ [] ∧ bytesContain PROBE_PONG_EXPECTED e.response = true) := by
  obtain ⟨o, w, r, resp⟩ := e
  cases o <;> cases w <;> cases r <;>
    simp [probePort, List.isEmpty_iff, and_assoc]

/-- Claim C9: the discovery scan over an empty port list reports no port
and probes nothing; it probes ports sequentially in enumeration order and
stops at the first matching port, probing exactly the ports up to and
including it; when no port matches it reports no port after probing all
of them; and any probe whose open, write or read raises counts as a
non-match (the failure is swallowed), so the scan continues past it. -/
theorem claim9_scan_first_match :
    scanPorts [] = (none, []) ∧
    (∀ (pre : List (String × ProbeEnv)) (p : String) (e : ProbeEnv)
        (post : List (String × ProbeEnv)),
        (∀ q ∈ pre, (probePort q.2).2 = false) →
        (probePort e).2 = true →
        scanPorts (pre ++ (p, e) :: post) = (some p, pre.map Prod.fst ++ [p])) ∧
    (∀ ports : List (String × ProbeEnv),
        (∀ q ∈ ports, (probePort q.2).2 = false) →
        scanPorts ports = (none, ports.map Prod.fst)) ∧
    (∀ e : ProbeEnv, (e.openOk = false ∨ e.writeOk = false ∨ e.readOk = false) →
        (probePort e).2 = false) := by
  refine ⟨rfl, ?_, ?_, ?_⟩
  · intro pre
    induction pre with
    | nil =>
      intro p e post _ hm
      simp [scanPorts, hm]
    | cons q pre ih =>
      intro p e post hpre hm
      obtain ⟨qp, qe⟩ := q
      have hq : (probePort qe).2 = false := hpre (qp, qe) (by simp)
      rw [List.cons_append, scanPorts, if_neg (by simp [hq]),
        ih p e post (fun q' hq' => hpre q' (by simp [hq'])) hm]
      simp
  · intro ports
    induction ports with
    | nil => intro _; rfl
    | cons q rest ih =>
      intro hall
      obtain ⟨qp, qe⟩ := q
      have hq : (probePort qe).2 = false := hall (qp, qe) (by simp)
      rw [scanPorts, if_neg (by simp [hq]), ih (fun q' hq' => hall q' (by simp [hq']))]
      simp
  · intro e he
    obtain ⟨o, w, r, resp⟩ := e
    cases o <;> cases w <;> cases r <;> simp_all [probePort]

/-- Witness for C9: a concrete scan where the first port's probe raises
on open (swallowed as non-match), the second matches, and a third port
exists but is never probed. -/
theorem claim9_witness :
    scanPorts
      [("COM1", ⟨false, true, true, []⟩),
       ("COM2", ⟨true, true, true, strBytes "HV=H1.0"⟩),
       ("COM3", ⟨true, true, true, strBytes "HV=H1.0"⟩)] =
      (some "COM2", ["COM1", "COM2"]) :=
  claim9_scan_first_match.2.1 [("COM1", ⟨false, true, true, []⟩)] "COM2"
    ⟨true, true, true, strBytes "HV=H1.0"⟩ [("COM3", ⟨true, true, true, strBytes "HV=H1.0"⟩)]
    (by intro q hq; simp at hq; subst hq; rfl) (by rfl)

/-- Claim C10: when the cancellation flag is already set before the
first flag read, the handshake, the header and the carriage-return byte
are still written (they precede the loop unconditionally); cancellation
suppresses only the payload chunks and the execute/feed trailer, and the
outcome is Canceled. -/
theorem claim10_preamble_despite_cancel (env : PrintEnv) (hdr data execute feed : List Nat)
    (ho : env.openOk = true) (h0 : env.writeRes 0 = .ok) (h1 : env.writeRes 1 = .ok)
    (h2 : env.writeRes 2 = .ok) (hc : env.cancelTime = some 0) :
    writesOf (runWorker env hdr data execute feed) = [PRINTER_HANDSHAKE, hdr, [0x0D]] ∧
    outcomesOf (runWorker env hdr data execute feed) = ["Canceled"] := by
  have hflag : flagAt env 0 = true := by simp [flagAt, hc]
  unfold runWorker tryBody streamPhase chunkLoop
  rw [ho, h0, h1, h2]
  cases hcs : chunksOf data with
  | nil =>
    simp [chunkLoopGo, hflag, writesOf, outcomesOf]
  | cons c rest =>
    rw [chunkLoopGo, if_pos hflag]
    simp [writesOf, outcomesOf]

/-- Witness for C10: a concrete pre-canceled job. -/
theorem claim10_witness :
    writesOf (runWorker ⟨true, fun _ => .ok, some 0⟩ [29, 118, 48, 0, 48, 0, 1] [170]
        PRINTER_EXECUTE FINAL_FEED_COMMAND) =
      [PRINTER_HANDSHAKE, [29, 118, 48, 0, 48, 0, 1], [0x0D]] ∧
    outcomesOf (runWorker ⟨true, fun _ => .ok, some 0⟩ [29, 118, 48, 0, 48, 0, 1] [170]
        PRINTER_EXECUTE FINAL_FEED_COMMAND) = ["Canceled"] :=
  claim10_preamble_despite_cancel ⟨true, fun _ => .ok, some 0⟩ [29, 118, 48, 0, 48, 0, 1]
    [170] PRINTER_EXECUTE FINAL_FEED_COMMAND rfl rfl rfl rfl rfl

/-- Streaming-phase behaviour under cancellation: flag set at flag-read
instant `t`, observed while streaming, with all writes succeeding.  The
phase writes exactly the first `t` chunks and its only outcome signal is
Canceled: the execute/feed trailer is never written. -/
theorem streamPhase_canceled (env : PrintEnv) (data execute feed : List Nat) (t : Nat)
    (hok : ∀ j, env.writeRes j = .ok) (hc : env.cancelTime = some t)
    (ht : t ≤ (chunksOf data).length) :
    writesOf (streamPhase env data execute feed) = (chunksOf data).take t ∧
    outcomesOf (streamPhase env data execute feed) = ["Canceled"] := by
  obtain ⟨hw, hres⟩ := chunkLoopGo_canceled env t hok hc (chunksOf data) 3 0 0
    (Nat.zero_le t) (by omega) (chunksOf_ne_nil data)
  have hoc := chunkLoopGo_outcomes env (chunksOf data) 3 0 0
  rw [Nat.sub_zero] at hw
  unfold streamPhase chunkLoop
  rcases hres with ⟨j', k', total', hcomp, hflag⟩ | ⟨j', k', total', hcanc⟩
  · rw [hcomp]
    simp only [hflag, if_true]
    constructor
    · simp only [writesOf, List.filterMap_append] at hw ⊢
      simp [hw]
    · simp only [outcomesOf, List.filterMap_append] at hoc ⊢
      simp [hoc]
  · rw [hcanc]
    constructor
    · simp only [writesOf, List.filterMap_append] at hw ⊢
      simp [hw]
    · simp only [outcomesOf, List.filterMap_append] at hoc ⊢
      simp [hoc]

/-- Claim C5: if the cancellation flag is observed set before a chunk is
sent (flag-read instant `t` within the job's reads, i.e. at most the
number of chunks), then exactly the first `t` chunks are written after
the preamble, no further payload chunk is written, neither the execute
command nor the feed command is ever written (the write list is closed),
and the single reported terminal outcome is Canceled — a title distinct
from the error titles. -/
theorem claim5_cancel_stops_stream (env : PrintEnv) (hdr data execute feed : List Nat)
    (t : Nat) (ho : env.openOk = true) (hok : ∀ j, env.writeRes j = .ok)
    (hc : env.cancelTime = some t) (ht : t ≤ (chunksOf data).length) :
    writesOf (runWorker env hdr data execute feed) =
      [PRINTER_HANDSHAKE, hdr, [0x0D]] ++ (chunksOf data).take t ∧
    outcomesOf (runWorker env hdr data execute feed) = ["Canceled"] ∧
    "Canceled" ≠ "Print Error" ∧ "Canceled" ≠ "Connection Error" := by
  obtain ⟨hw, hoc⟩ := streamPhase_canceled env data execute feed t hok hc ht
  unfold runWorker tryBody
  rw [ho, hok 0, hok 1, hok 2]
  simp only [writesOf, outcomesOf, List.filterMap_append, List.filterMap_cons] at hw hoc ⊢
  simp [hw, hoc]

/-- Witness for C5: a one-chunk job whose flag becomes set at flag-read
instant 1 — the chunk is written, then the loop stops with a Canceled
outcome and no execute/feed bytes. -/
theorem claim5_witness :
    writesOf (runWorker ⟨true, fun _ => .ok, some 1⟩ [29, 118, 48, 0, 48, 0, 1] [1, 2, 3]
        PRINTER_EXECUTE FINAL_FEED_COMMAND) =
      [PRINTER_HANDSHAKE, [29, 118, 48, 0, 48, 0, 1], [0x0D]] ++ (chunksOf [1, 2, 3]).take 1 ∧
    outcomesOf (runWorker ⟨true, fun _ => .ok, some 1⟩ [29, 118, 48, 0, 48, 0, 1] [1, 2, 3]
        PRINTER_EXECUTE FINAL_FEED_COMMAND) = ["Canceled"] ∧
    "Canceled" ≠ "Print Error" ∧ "Canceled" ≠ "Connection Error" :=
  claim5_cancel_stops_stream ⟨true, fun _ => .ok, some 1⟩ [29, 118, 48, 0, 48, 0, 1]
    [1, 2, 3] PRINTER_EXECUTE FINAL_FEED_COMMAND 1 rfl (fun _ => rfl) rfl (by decide)

theorem exnTitle_ne_success (e : WriteRes) : exnTitle e ≠ "Success" := by
  cases e <;> decide

/-- A job that reports Success wrote, after the chunk loop's events,
exactly the execute and feed commands; the chunk loop itself wrote
exactly the payload chunks. -/
theorem streamPhase_success (env : PrintEnv) (data execute feed : List Nat)
    (hs : Ev.outcome "Success" ∈ streamPhase env data execute feed) :
    writesOf (streamPhase env data execute feed) = chunksOf data ++ [execute, feed] := by
  have hno : Ev.outcome "Success" ∉ (chunkLoopGo env (chunksOf data) 3 0 0).1 := by
    intro h
    rcases chunkLoopGo_events env _ 3 0 0 _ h with ⟨bs, h'⟩ | h' | ⟨n, h'⟩ | h' <;> simp at h'
  unfold streamPhase chunkLoop at hs ⊢
  revert hs
  rcases hres : (chunkLoopGo env (chunksOf data) 3 0 0).2 with ⟨j, k, total⟩ | ⟨j, k, total⟩ | e <;>
    intro hs
  · by_cases hflag : flagAt env k = true
    · simp only [hflag, if_true] at hs
      rcases List.mem_append.mp hs with h | h
      · exact absurd h hno
      · simp at h
    · simp only [hflag, Bool.false_eq_true, if_false] at hs ⊢
      rcases List.mem_append.mp hs with h | h
      · exact absurd h hno
      · revert h
        unfold execFeedTail
        rcases hw0 : env.writeRes j with _ | _ | _ | _ <;> intro h
        · revert h
          rcases hw1 : env.writeRes (j + 1) with _ | _ | _ | _ <;> intro h
          · have hcw := chunkLoopGo_completed_writes env (chunksOf data) 3 0 0 j k total
              (chunksOf_ne_nil data) hres
            simp only [writesOf, List.filterMap_append, List.filterMap_cons] at hcw ⊢
            simp [hcw]
          all_goals exact absurd (by simpa using h) (by decide)
        all_goals exact absurd (by simpa using h) (by decide)
  · rcases List.mem_append.mp hs with h | h
    · exact absurd h hno
    · simp at h
  · rcases List.mem_append.mp hs with h | h
    · exact absurd h hno
    · have := exnTitle_ne_success e
      simp at h
      exact (this h.symm).elim

/-- Claim C1 counterexample: the claimed wire order
handshake, CR, header, chunks, execute, feed is NOT what a successfully
completed job puts on the serial line: on a concrete one-byte job the
worker reports Success but writes the 7-byte header BEFORE the
carriage-return byte, not after it. -/
theorem claim1_counterexample :
    Ev.outcome "Success" ∈ runWorker ⟨true, fun _ => .ok, none⟩ [29, 118, 48, 0, 48, 0, 1]
      [170] PRINTER_EXECUTE FINAL_FEED_COMMAND ∧
    wireBytes (runWorker ⟨true, fun _ => .ok, none⟩ [29, 118, 48, 0, 48, 0, 1] [170]
        PRINTER_EXECUTE FINAL_FEED_COMMAND) ≠
      PRINTER_HANDSHAKE ++ [0x0D] ++ [29, 118, 48, 0, 48, 0, 1] ++ [170] ++
        PRINTER_EXECUTE ++ FINAL_FEED_COMMAND := by
  decide

/-- The protocol body takes one of four shapes: the full preamble
followed by the streaming phase (all three preamble writes succeeded),
or a prefix of the preamble cut short by a raising write, ending in the
corresponding error outcome. -/
theorem tryBody_cases (env : PrintEnv) (hdr data execute feed : List Nat) :
    (tryBody env hdr data execute feed =
        .write PRINTER_HANDSHAKE :: .sleep :: .write hdr :: .flush :: .write [0x0D] ::
          .flush :: .sleep :: streamPhase env data execute feed) ∨
    (∃ e, tryBody env hdr data execute feed = [.outcome (exnTitle e)]) ∨
    (∃ e, tryBody env hdr data execute feed =
        [.write PRINTER_HANDSHAKE, .sleep, .outcome (exnTitle e)]) ∨
    (∃ e, tryBody env hdr data execute feed =
        [.write PRINTER_HANDSHAKE, .sleep, .write hdr, .flush, .outcome (exnTitle e)]) := by
  unfold tryBody
  rcases hw0 : env.writeRes 0 with _ | _ | _ | _
  · rcases hw1 : env.writeRes 1 with _ | _ | _ | _
    · rcases hw2 : env.writeRes 2 with _ | _ | _ | _
      · exact Or.inl rfl
      all_goals exact Or.inr (Or.inr (Or.inr ⟨_, rfl⟩))
    all_goals exact Or.inr (Or.inr (Or.inl ⟨_, rfl⟩))
  all_goals exact Or.inr (Or.inl ⟨_, rfl⟩)

/-- Claim C1 (amended): for every print job that runs to successful
completion (the worker reports Success), the bytes written to the serial
port form, in order, exactly: the handshake string, then the 7-byte
header, then the single carriage-return byte 0x0D, then the payload
chunks in index order, then the execute command, then the feed command —
the carriage return is written after the header, not before it. -/
theorem claim1_amended (env : PrintEnv) (hdr data execute feed : List Nat)
    (hs : Ev.outcome "Success" ∈ runWorker env hdr data execute feed) :
    wireBytes (runWorker env hdr data execute feed) =
      PRINTER_HANDSHAKE ++ hdr ++ [0x0D] ++ data ++ execute ++ feed := by
  unfold runWorker at hs ⊢
  by_cases ho : env.openOk = true
  · rw [if_pos ho] at hs ⊢
    rcases tryBody_cases env hdr data execute feed with htb | ⟨e, htb⟩ | ⟨e, htb⟩ | ⟨e, htb⟩ <;>
      rw [htb] at hs ⊢
    · have hsp : Ev.outcome "Success" ∈ streamPhase env data execute feed := by
        simpa using hs
      have hwr := streamPhase_success env data execute feed hsp
      simp only [wireBytes, writesOf, List.filterMap_append, List.filterMap_cons] at hwr ⊢
      simp [hwr, chunksOf_flatten, List.append_assoc]
    all_goals
      simp at hs
      exact (exnTitle_ne_success e hs.symm).elim
  · rw [if_neg ho] at hs
    exact absurd hs (by decide)

/-- Witness for the amended C1 at a concrete successful job. -/
theorem claim1_witness :
    wireBytes (runWorker ⟨true, fun _ => .ok, none⟩ [29, 118, 48, 0, 48, 0, 1] [170]
        PRINTER_EXECUTE FINAL_FEED_COMMAND) =
      PRINTER_HANDSHAKE ++ [29, 118, 48, 0, 48, 0, 1] ++ [0x0D] ++ [170] ++
        PRINTER_EXECUTE ++ FINAL_FEED_COMMAND :=
  claim1_amended ⟨true, fun _ => .ok, none⟩ [29, 118, 48, 0, 48, 0, 1] [170]
    PRINTER_EXECUTE FINAL_FEED_COMMAND (by decide)

theorem execFeedTail_outcome (env : PrintEnv) (execute feed : List Nat) (j : Nat) :
    (∃ s, outcomesOf (execFeedTail env execute feed j) = [s]) ∧
    Ev.close ∉ execFeedTail env execute feed j ∧
    Ev.finished ∉ execFeedTail env execute feed j := by
  unfold execFeedTail
  rcases env.writeRes j with _ | _ | _ | _
  · rcases env.writeRes (j + 1) with _ | _ | _ | _ <;>
      exact ⟨⟨_, rfl⟩, by simp, by simp⟩
  all_goals exact ⟨⟨_, rfl⟩, by simp, by simp⟩

/-- The streaming phase emits exactly one outcome signal and never
closes the port or emits `finished` itself. -/
theorem streamPhase_outcome (env : PrintEnv) (data execute feed : List Nat) :
    (∃ s, outcomesOf (streamPhase env data execute feed) = [s]) ∧
    Ev.close ∉ streamPhase env data execute feed ∧
    Ev.finished ∉ streamPhase env data execute feed := by
  have hoc := chunkLoopGo_outcomes env (chunksOf data) 3 0 0
  have hncl := chunkLoopGo_no_close env (chunksOf data) 3 0 0
  have hnf := chunkLoopGo_no_finished env (chunksOf data) 3 0 0
  unfold streamPhase chunkLoop
  rcases hres : (chunkLoopGo env (chunksOf data) 3 0 0).2 with ⟨j, k, total⟩ | ⟨j, k, total⟩ | e
  · by_cases hflag : flagAt env k = true
    · simp only [hflag, if_true]
      refine ⟨⟨"Canceled", ?_⟩, ?_, ?_⟩
      · simp only [outcomesOf, List.filterMap_append] at hoc ⊢
        simp [hoc]
      · simp [List.mem_append, hncl]
      · simp [List.mem_append, hnf]
    · simp only [hflag, Bool.false_eq_true, if_false]
      obtain ⟨⟨s, hs⟩, hc, hf⟩ := execFeedTail_outcome env execute feed j
      refine ⟨⟨s, ?_⟩, ?_, ?_⟩
      · simp only [outcomesOf, List.filterMap_append] at hoc hs ⊢
        simp [hoc, hs]
      · simp [List.mem_append, hncl, hc]
      · simp [List.mem_append, hnf, hf]
  · refine ⟨⟨"Canceled", ?_⟩, ?_, ?_⟩
    · simp only [outcomesOf, List.filterMap_append] at hoc ⊢
      simp [hoc]
    · simp [List.mem_append, hncl]
    · simp [List.mem_append, hnf]
  · refine ⟨⟨exnTitle e, ?_⟩, ?_, ?_⟩
    · simp only [outcomesOf, List.filterMap_append] at hoc ⊢
      simp [hoc]
    · simp [List.mem_append, hncl]
    · simp [List.mem_append, hnf]

/-- The `try`/`except` body emits exactly one outcome signal and never
closes the port or emits `finished` itself. -/
theorem tryBody_outcome (env : PrintEnv) (hdr data execute feed : List Nat) :
    (∃ s, outcomesOf (tryBody env hdr data execute feed) = [s]) ∧
    Ev.close ∉ tryBody env hdr data execute feed ∧
    Ev.finished ∉ tryBody env hdr data execute feed := by
  rcases tryBody_cases env hdr data execute feed with htb | ⟨e, htb⟩ | ⟨e, htb⟩ | ⟨e, htb⟩ <;>
    rw [htb]
  · obtain ⟨⟨s, hs⟩, hc, hf⟩ := streamPhase_outcome env data execute feed
    refine ⟨⟨s, ?_⟩, ?_, ?_⟩
    · simp only [outcomesOf, List.filterMap_cons] at hs ⊢
      simp [hs]
    · simp [hc]
    · simp [hf]
  all_goals exact ⟨⟨_, rfl⟩, by simp, by simp⟩

/-- Claim C7 counterexample: the close does NOT happen before the
terminal outcome notification.  On a concrete successful job the worker
emits the Success outcome signal strictly before it closes the serial
handle (the close lives in the `finally` clause, which runs after the
outcome was emitted from the `try` body). -/
theorem claim7_counterexample :
    Ev.outcome "Success" ∈ runWorker ⟨true, fun _ => .ok, none⟩ [29, 118, 48, 0, 48, 0, 1]
      [170] PRINTER_EXECUTE FINAL_FEED_COMMAND ∧
    Ev.close ∈ runWorker ⟨true, fun _ => .ok, none⟩ [29, 118, 48, 0, 48, 0, 1]
      [170] PRINTER_EXECUTE FINAL_FEED_COMMAND ∧
    List.indexOf (Ev.outcome "Success")
        (runWorker ⟨true, fun _ => .ok, none⟩ [29, 118, 48, 0, 48, 0, 1]
          [170] PRINTER_EXECUTE FINAL_FEED_COMMAND) <
      List.indexOf Ev.close
        (runWorker ⟨true, fun _ => .ok, none⟩ [29, 118, 48, 0, 48, 0, 1]
          [170] PRINTER_EXECUTE FINAL_FEED_COMMAND) := by
  decide

/-- Claim C7 (amended): whenever the port was opened, every terminal
trace has the shape `sleep, body, close, finished` where the body emits
exactly one terminal-outcome signal and contains no close and no
finished: the serial connection is closed exactly once, from the single
`finally` exit path, for every outcome — but the close happens after the
outcome signal is emitted (and before the `finished` signal), not before
it.  When the open itself fails there is no connection to close: the
trace is exactly sleep, Connection Error outcome, finished. -/
theorem claim7_amended (env : PrintEnv) (hdr data execute feed : List Nat) :
    (env.openOk = true →
      ∃ evs s,
        runWorker env hdr data execute feed = Ev.sleep :: (evs ++ [Ev.close, Ev.finished]) ∧
        outcomesOf evs = [s] ∧ Ev.close ∉ evs ∧ Ev.finished ∉ evs) ∧
    (env.openOk = false →
      runWorker env hdr data execute feed =
        [Ev.sleep, Ev.outcome "Connection Error", Ev.finished]) := by
  constructor
  · intro ho
    obtain ⟨⟨s, hs⟩, hc, hf⟩ := tryBody_outcome env hdr data execute feed
    exact ⟨tryBody env hdr data execute feed, s, by simp [runWorker, ho], hs, hc, hf⟩
  · intro ho
    simp [runWorker, ho]

/-- Witness for the amended C7 at a concrete successful job. -/
theorem claim7_witness :
    ∃ evs s,
      runWorker ⟨true, fun _ => .ok, none⟩ [29, 118, 48, 0, 48, 0, 1] [170]
          PRINTER_EXECUTE FINAL_FEED_COMMAND = Ev.sleep :: (evs ++ [Ev.close, Ev.finished]) ∧
      outcomesOf evs = [s] ∧ Ev.close ∉ evs ∧ Ev.finished ∉ evs :=
  (claim7_amended ⟨true, fun _ => .ok, none⟩ [29, 118, 48, 0, 48, 0, 1] [170]
    PRINTER_EXECUTE FINAL_FEED_COMMAND).1 rfl

/-! ## Encoder lemmas and claims -/

/-- The processed image is always exactly `PRINTER_WIDTH_PX` pixels
wide: a narrow crop is padded onto a 384-wide canvas, and a non-narrow
crop is itself at most (hence exactly) 384 wide, since the crop window
is clamped to `x_offset + PRINTER_WIDTH_PX`. -/
theorem imageToProcess_width (img : Img) (off : Nat) (al : Alignment) :
    (imageToProcess img off al).width = PRINTER_WIDTH_PX := by
  unfold imageToProcess
  split
  · rfl
  · rename_i h
    have hle : (croppedImage img off).width ≤ PRINTER_WIDTH_PX := by
      simp only [croppedImage, rightBoundOf]
      omega
    omega

/-- The processed image keeps the full source height: the crop is at
full height and the padding canvas is allocated at the crop height. -/
theorem imageToProcess_height (img : Img) (off : Nat) (al : Alignment) :
    (imageToProcess img off al).height = img.height := by
  unfold imageToProcess
  split <;> rfl

/-- Claim C4: a crop of width `w` with `0 < w < 384` is pasted onto a
white (value 255) canvas of width exactly 384 at x-offset `0` for left,
`(384 - w) / 2` (integer division) for center and `384 - w` for right;
a crop of width at least 384 is used as-is, with no canvas. -/
theorem claim4_canvas_paste (img : Img) (off : Nat) (al : Alignment) :
    (0 < (croppedImage img off).width → (croppedImage img off).width < PRINTER_WIDTH_PX →
      (imageToProcess img off al).width = 384 ∧
      (imageToProcess img off al).height = (croppedImage img off).height ∧
      pastePosition al (PRINTER_WIDTH_PX - (croppedImage img off).width) =
        (match al with
          | Alignment.left => 0
          | Alignment.center => (384 - (croppedImage img off).width) / 2
          | Alignment.right => 384 - (croppedImage img off).width) ∧
      (∀ x y,
        (imageToProcess img off al).px x y =
          if pastePosition al (PRINTER_WIDTH_PX - (croppedImage img off).width) ≤ x ∧
              x < pastePosition al (PRINTER_WIDTH_PX - (croppedImage img off).width) +
                (croppedImage img off).width ∧
              y < (croppedImage img off).height
          then (croppedImage img off).px
            (x - pastePosition al (PRINTER_WIDTH_PX - (croppedImage img off).width)) y
          else 255)) ∧
    (PRINTER_WIDTH_PX ≤ (croppedImage img off).width →
      imageToProcess img off al = croppedImage img off) := by
  constructor
  · intro _ h2
    refine ⟨?_, imageToProcess_height img off al, ?_, ?_⟩
    · exact imageToProcess_width img off al
    · cases al <;> rfl
    · intro x y
      unfold imageToProcess
      rw [if_pos h2]
      rfl
  · intro hge
    unfold imageToProcess
    rw [if_neg (by omega)]

/-- Witness for C4: the spec scenario, a 100 x 20 opaque (all-black)
image with right alignment is pasted at x = 284 on a 384-wide white
canvas: pixel column 283 is canvas white, column 284 is the crop's
first (black) column. -/
theorem claim4_witness :
    (imageToProcess ⟨100, 20, fun _ _ => 0⟩ 0 Alignment.right).width = 384 ∧
    pastePosition Alignment.right
        (PRINTER_WIDTH_PX - (croppedImage ⟨100, 20, fun _ _ => 0⟩ 0).width) = 284 ∧
    (imageToProcess ⟨100, 20, fun _ _ => 0⟩ 0 Alignment.right).px 283 0 = 255 ∧
    (imageToProcess ⟨100, 20, fun _ _ => 0⟩ 0 Alignment.right).px 284 0 = 0 := by
  obtain ⟨h, -⟩ := claim4_canvas_paste ⟨100, 20, fun _ _ => 0⟩ 0 Alignment.right
  obtain ⟨hw, hh, hp, hpx⟩ := h (by decide) (by decide)
  refine ⟨hw, by decide, ?_, ?_⟩
  · rw [hpx 283 0]
    decide
  · rw [hpx 284 0]
    decide

end PrinterX6
